import Mathlib

/-!
Verification of the news-aggregation pipeline of the stock-dashboard
repository (`news_engine.py`, consumed by `app_improved.py`).

Python strings are embedded as `List Char`; Python `datetime` values are
embedded as `Int` (epoch seconds; `datetime.fromtimestamp` is the identity
of this embedding and `datetime.now()` is an explicit `now : Int`
parameter).  Network interaction (`requests.get` + payload decoding) is
embedded as a `respond` function returning `Except Err payload`; an
`Except.error` input models any transport error, timeout or malformed
payload, all of which raise inside the Python `try` block of each adapter.
-/

/-- Embedding of a Python `str` as a list of characters. -/
abbrev PyStr := List Char


/-- Embedding of a Python exception value (the message). -/
abbrev Err := PyStr


/-- Embedding of a Python `datetime` as epoch seconds. -/
abbrev Time := Int


/-- Python `str.lower()` (character-wise lowering). -/
def pyLower (s : PyStr) : PyStr := s.map Char.toLower


/-- Python `str.strip()`: remove leading and trailing whitespace. -/
def pyStrip (s : PyStr) : PyStr :=
  ((s.dropWhile Char.isWhitespace).reverse.dropWhile Char.isWhitespace).reverse


/-- Boolean test that `p` is a leading segment of `s` (Python `str.startswith`). -/
def isPrefixB : PyStr → PyStr → Bool
  | [], _ => true
  | _ :: _, [] => false
  | a :: as, b :: bs => a = b && isPrefixB as bs


/-- Python `needle in hay` substring containment. -/
def containsSub (needle : PyStr) : PyStr → Bool
  | [] => isPrefixB needle []
  | c :: cs => isPrefixB needle (c :: cs) || containsSub needle cs


/-- Fuel-indexed scanner behind `pyReplace`; the fuel starts at the string
length and each step consumes at least one character, so it never runs out. -/
def pyReplaceAux (old new : PyStr) : Nat → PyStr → PyStr
  | 0, s => s
  | _ + 1, [] => []
  | fuel + 1, c :: rest =>
    if isPrefixB old (c :: rest) && !old.isEmpty then
      new ++ pyReplaceAux old new fuel (rest.drop (old.length - 1))
    else
      c :: pyReplaceAux old new fuel rest


/-- Python `s.replace(old, new)` for a nonempty pattern `old`
(every call site in the source uses a nonempty pattern such as `".HK"`). -/
def pyReplace (old new : PyStr) (s : PyStr) : PyStr :=
  pyReplaceAux old new s.length s


/-- Python `s.split(sep)` for a one-character separator. -/
def pySplit (sep : Char) : PyStr → List PyStr
  | [] => [[]]
  | c :: rest =>
    match pySplit sep rest with
    | [] => [[]]
    | t :: ts => if c = sep then [] :: t :: ts else (c :: t) :: ts


/-- The apostrophe character, used by Python `repr` of a string. -/
def quoteChar : Char := Char.ofNat 39


/-- Python `str(list_of_strings)`: `[]` or `['a', 'b']`. -/
def pyStrOfStrList (l : List PyStr) : PyStr :=
  match l with
  | [] => "[]".toList
  | _ =>
    "[".toList
      ++ List.intercalate ", ".toList (l.map fun s => quoteChar :: s ++ [quoteChar])
      ++ "]".toList


/-- The canonical article record every adapter produces
(`title`, `link`, `source`, `published`, `keywords`, `region`, `summary`). -/
structure Article where
  title : PyStr
  link : PyStr
  source : PyStr
  published : Time
  keywords : List PyStr
  region : PyStr
  summary : PyStr
deriving DecidableEq


/-- The stripped lowercased title used by `get_all_news_cached`'s dedup
(`title = item["title"].lower().strip()`, line 714). -/
def tickerDedupTitle (a : Article) : PyStr := pyStrip (pyLower a.title)


/-- Ticker-news dedup key: `title_key = title[:60]` (line 715). -/
def tickerKey (a : Article) : PyStr := (tickerDedupTitle a).take 60


/-- Ticker-news dedup admission: `len(title) > 2` (line 717). -/
def admTicker (a : Article) : Bool := decide (2 < (tickerDedupTitle a).length)


/-- Headline dedup key: `title_key = item["title"].lower()[:60]` (line 643). -/
def headlineKey (a : Article) : PyStr := (pyLower a.title).take 60


/-- Headline dedup admission: `len(item["title"]) > 5` (line 644). -/
def admHeadline (a : Article) : Bool := decide (5 < a.title.length)


/-- The dedup loop shared by `get_all_news_cached` (lines 710-719) and
`fetch_market_headlines` (lines 639-646): a `seen` set of keys is threaded
through; an article is kept iff its key is unseen and it passes the
admission test, in which case its key becomes seen. -/
def dedupBy (key : Article → PyStr) (adm : Article → Bool) :
    List Article → List PyStr → List Article
  | [], _ => []
  | a :: rest, seen =>
    if key a ∉ seen ∧ adm a = true then
      a :: dedupBy key adm rest (key a :: seen)
    else
      dedupBy key adm rest seen


/-- Descending-by-`published` ordering used by both output sorts
(`sort(key=lambda x: x["published"], reverse=True)`). -/
def pubGe (a b : Article) : Prop := b.published ≤ a.published


instance : DecidableRel pubGe :=
  fun a b => inferInstanceAs (Decidable (b.published ≤ a.published))


instance : IsTotal Article pubGe :=
  ⟨fun a b => le_total b.published a.published⟩


instance : IsTrans Article pubGe :=
  ⟨fun _ _ _ h1 h2 => le_trans h2 h1⟩


/-- Python's stable `list.sort(..., reverse=True)` on `published`. -/
def sortDesc (l : List Article) : List Article := l.insertionSort pubGe


/-- One entry of the Yahoo Finance news payload (`stock.news` items);
`none` fields model absent dictionary keys. -/
structure YahooItem where
  title : Option PyStr
  headline : Option PyStr
  summary : Option PyStr
  link : Option PyStr
  publisher : Option PyStr
  providerPublishTime : Option Int
deriving DecidableEq


/-- Title extraction of `fetch_yahoo_news` (lines 39-42): fall back to
`headline`, then `summary`, then `"Untitled Article"` when the title is
missing, empty, or the literal `"No title"`. -/
def yahooTitle (item : YahooItem) : PyStr :=
  let t := item.title.getD []
  if t = [] ∨ t = "No title".toList then
    item.headline.getD (item.summary.getD "Untitled Article".toList)
  else t


/-- Timestamp handling of `fetch_yahoo_news` (lines 45-52): a positive
`providerPublishTime` is used, otherwise the current time. -/
def yahooPubDate (item : YahooItem) (now : Time) : Time :=
  let ts := item.providerPublishTime.getD 0
  if 0 < ts then ts else now


/-- `fetch_yahoo_news(ticker)` (lines 24-71). -/
def fetch_yahoo_news (respond : PyStr → Except Err (List YahooItem))
    (ticker : PyStr) (now : Time) : List Article :=
  match respond ticker with
  | .error _ => []
  | .ok news =>
    if news = [] then []
    else
      (news.take 15).filterMap fun item =>
        let title := yahooTitle item
        if 5 < title.length then
          some
            { title := title
              link := item.link.getD "#".toList
              source := item.publisher.getD "Yahoo Finance".toList
              published := yahooPubDate item now
              keywords := []
              region :=
                if containsSub ".HK".toList ticker then "Hong Kong".toList
                else "Global".toList
              summary := (item.summary.getD []).take 200 }
        else none


/-- One entry of the Finnhub company-news payload. -/
structure FinnhubItem where
  headline : Option PyStr
  url : Option PyStr
  source : Option PyStr
  datetime : Option Int
  related : Option PyStr
  summary : Option PyStr
deriving DecidableEq


/-- Per-item record construction of `fetch_finnhub_news` (lines 102-113);
note that the summary is passed through with no truncation (line 112). -/
def finnhubArticle (ticker : PyStr) (now : Time) (item : FinnhubItem) :
    Option Article :=
  let headline := item.headline.getD []
  if 5 < headline.length then
    some
      { title := headline
        link := item.url.getD "#".toList
        source := item.source.getD "Finnhub".toList
        published :=
          match item.datetime with
          | some d => if d ≠ 0 then d else now
          | none => now
        keywords :=
          match item.related with
          | some r => if r ≠ [] then pySplit ',' r else []
          | none => []
        region :=
          if containsSub ".HK".toList ticker then "Hong Kong".toList
          else "Global".toList
        summary := item.summary.getD [] }
  else none


/-- The per-search-ticker loop of `fetch_finnhub_news` (lines 87-113): a
failed request raises, discarding every article gathered so far (`none`),
while the request trace records the symbols queried before the failure. -/
def finnhubLoop (respond : PyStr → Except Err (Nat × List FinnhubItem))
    (ticker : PyStr) (now : Time) :
    List PyStr → Option (List Article) × List PyStr
  | [] => (some [], [])
  | s :: ss =>
    match respond s with
    | .error _ => (none, [s])
    | .ok (status, data) =>
      let here :=
        if status = 200 then (data.take 10).filterMap (finnhubArticle ticker now)
        else []
      let rest := finnhubLoop respond ticker now ss
      (rest.1.map fun r => here ++ r, s :: rest.2)


/-- `fetch_finnhub_news(ticker)` (lines 74-120); the second component is the
list of symbols actually sent to the network. -/
def fetch_finnhub_news (key : PyStr)
    (respond : PyStr → Except Err (Nat × List FinnhubItem))
    (ticker : PyStr) (now : Time) : List Article × List PyStr :=
  if key = [] then ([], [])
  else
    let searchTickers :=
      if containsSub ".HK".toList ticker then
        [ticker, pyReplace ".HK".toList [] ticker]
      else [ticker]
    let res := finnhubLoop respond ticker now searchTickers
    (res.1.getD [], res.2)


/-- One entry of the NewsAPI `articles` payload; `sourceName` models
`item.get("source", {}).get("name", ...)`, and `publishedAt` models the
already-parsed ISO timestamp (`none` when the field is absent or falsy). -/
structure NewsApiItem where
  title : Option PyStr
  url : Option PyStr
  sourceName : Option PyStr
  publishedAt : Option Int
  description : Option PyStr
deriving DecidableEq


/-- Region derivation of `fetch_newsapi_news` (lines 165-170). -/
def newsapiRegion (title : PyStr) : PyStr :=
  if ["Hong Kong", "香港", "HK"].any (fun x => containsSub x.toList title) then
    "Hong Kong".toList
  else if ["China", "中国", "Chinese"].any (fun x => containsSub x.toList title) then
    "China".toList
  else "Global".toList


/-- Search-query construction of `fetch_newsapi_news` (lines 129-144). -/
def newsapiQuery (ticker : PyStr) (companyName : Option PyStr) : PyStr :=
  let searchTerms :=
    (match companyName with
     | some c => if c ≠ [] then [c] else []
     | none => []) ++
    [pyReplace ".SZ".toList []
      (pyReplace ".SS".toList [] (pyReplace ".HK".toList [] ticker))]
  if containsSub ".HK".toList ticker then
    "(".toList ++ List.intercalate " OR ".toList searchTerms
      ++ ") AND (Hong Kong OR 香港 OR China OR 中国)".toList
  else
    List.intercalate " OR ".toList searchTerms


/-- `fetch_newsapi_news(ticker, company_name)` (lines 123-187); the second
component is the list of queries actually sent to the network. -/
def fetch_newsapi_news (key : PyStr)
    (respond : PyStr → Except Err (Nat × List NewsApiItem))
    (ticker : PyStr) (companyName : Option PyStr) (now : Time) :
    List Article × List PyStr :=
  if key = [] then ([], [])
  else
    let q := newsapiQuery ticker companyName
    match respond q with
    | .error _ => ([], [q])
    | .ok (status, items) =>
      if status = 200 then
        ((items.take 15).filterMap fun item =>
          let title := item.title.getD []
          if 5 < title.length then
            some
              { title := title
                link := item.url.getD "#".toList
                source := item.sourceName.getD "NewsAPI".toList
                published := item.publishedAt.getD now
                keywords := []
                region := newsapiRegion title
                summary := (item.description.getD []).take 200 }
          else none, [q])
      else ([], [q])


/-- Outcome of `strptime` on a present `time_published` field. -/
inductive AvTime where
  | parsed (t : Int)
  | failed
deriving DecidableEq


/-- One entry of the Alpha Vantage `feed` payload. -/
structure AvItem where
  title : Option PyStr
  url : Option PyStr
  source : Option PyStr
  timePublished : Option AvTime
  tickerSentiment : List PyStr
  summary : Option PyStr
deriving DecidableEq


/-- Epoch value of `strptime("20240101T000000", "%Y%m%dT%H%M%S")`, the
default used when `time_published` is absent (line 216). -/
def AV_DEFAULT_TIME : Int := 1704067200


/-- `fetch_alphavantage_news(ticker)` (lines 190-235); the second component
is the list of symbols actually sent to the network. -/
def fetch_alphavantage_news (key : PyStr)
    (respond : PyStr → Except Err (Nat × Option (List AvItem)))
    (ticker : PyStr) (now : Time) : List Article × List PyStr :=
  if key = [] then ([], [])
  else
    let cleanTicker := pyReplace ".HK".toList [] ticker
    match respond cleanTicker with
    | .error _ => ([], [cleanTicker])
    | .ok (status, feed) =>
      if status = 200 then
        match feed with
        | some items =>
          ((items.take 10).filterMap fun item =>
            let title := item.title.getD []
            if 5 < title.length then
              some
                { title := title
                  link := item.url.getD "#".toList
                  source := item.source.getD "Alpha Vantage".toList
                  published :=
                    match item.timePublished with
                    | none => AV_DEFAULT_TIME
                    | some (.parsed t) => t
                    | some .failed => now
                  keywords := item.tickerSentiment
                  region := "Global".toList
                  summary := (item.summary.getD []).take 200 }
            else none, [cleanTicker])
        | none => ([], [cleanTicker])
      else ([], [cleanTicker])


/-- One parsed `<item>` of a Google News RSS feed; `pubDate` is the parsed
date (`none` when the element is absent or `strptime` fails, in which case
the current time is substituted). -/
structure RssItem where
  title : Option PyStr
  link : Option PyStr
  pubDate : Option Int
deriving DecidableEq


/-- The per-item record construction shared by both Google News RSS
adapters and both Google headline sections: items without a title element
are skipped, and titles of length at most `minLen` are dropped
(`minLen = 5` everywhere except the Chinese adapter, where it is 2). -/
def rssArticle (minLen : Nat) (sourceName region : PyStr) (now : Time)
    (item : RssItem) : Option Article :=
  match item.title with
  | none => none
  | some title =>
    if minLen < title.length then
      some
        { title := title
          link := item.link.getD "#".toList
          source := sourceName
          published := item.pubDate.getD now
          keywords := []
          region := region
          summary := [] }
    else none


/-- `fetch_google_news_rss(company_name, ticker)` (lines 238-289). -/
def fetch_google_news_rss (respond : PyStr → Except Err (Nat × List RssItem))
    (companyName ticker : PyStr) (now : Time) : List Article :=
  let searchQuery :=
    if companyName ≠ [] then companyName
    else pyReplace ".HK".toList [] ticker
  match respond searchQuery with
  | .error _ => []
  | .ok (status, items) =>
    if status = 200 then
      (items.take 10).filterMap
        (rssArticle 5 "Google News".toList
          (if containsSub ".HK".toList ticker then "Hong Kong".toList
           else "Global".toList) now)
    else []


/-- `fetch_google_news_chinese(company_name, ticker)` (lines 292-348); the
admission threshold is `len(title) > 2` (line 332, "Chinese titles can be
shorter"). -/
def fetch_google_news_chinese (respond : PyStr → Except Err (Nat × List RssItem))
    (companyName ticker : PyStr) (now : Time) : List Article :=
  let searchQuery :=
    if containsSub ".HK".toList ticker then
      pyReplace ".HK".toList [] ticker ++ " OR ".toList ++ companyName
    else companyName
  match respond searchQuery with
  | .error _ => []
  | .ok (status, items) =>
    if status = 200 then
      (items.take 10).filterMap
        (rssArticle 2 "Google 新闻".toList "China/HK (中文)".toList now)
    else []


/-- One scraped `<h3>` of the Yahoo HK quote page; `parentHref` is the
`href` of the enclosing `<a>` (absent when there is no such parent). -/
structure ZhYahooItem where
  title : PyStr
  parentHref : Option PyStr
deriving DecidableEq


/-- `fetch_zh_yahoo_finance(ticker)` (lines 476-521). -/
def fetch_zh_yahoo_finance (respond : PyStr → Except Err (Nat × List ZhYahooItem))
    (ticker : PyStr) (now : Time) : List Article :=
  let stockCode := pyReplace ".HK".toList [] ticker
  match respond stockCode with
  | .error _ => []
  | .ok (status, items) =>
    if status = 200 then
      (items.take 10).filterMap fun item =>
        match item.parentHref with
        | none => none
        | some href =>
          if 5 < item.title.length then
            some
              { title := item.title
                link :=
                  if isPrefixB "/".toList href then
                    "https://hk.finance.yahoo.com".toList ++ href
                  else href
                source := "Yahoo財經 (HK)".toList
                published := now
                keywords := []
                region := "Hong Kong (中文)".toList
                summary := [] }
          else none
    else []


/-- One scraped anchor of the Sina Finance page. -/
structure SinaLink where
  text : PyStr
  href : PyStr
deriving DecidableEq


/-- The fixed keyword list of `fetch_sina_finance_rss` (line 380). -/
def sinaKeywords : List PyStr := ["股".toList, "市".toList, "港股".toList, "投资".toList]


/-- Relevance condition of `fetch_sina_finance_rss` (lines 378-380). -/
def sinaCond (stockCode : PyStr) (l : SinaLink) : Bool :=
  decide (5 < l.text.length) &&
    (containsSub stockCode l.text ||
      sinaKeywords.any fun kw => containsSub kw l.text)


/-- Record construction of `fetch_sina_finance_rss` (lines 382-390). -/
def sinaArticle (l : SinaLink) (now : Time) : Article :=
  { title := l.text
    link :=
      if isPrefixB "http".toList l.href then l.href
      else "https://finance.sina.com.cn".toList ++ l.href
    source := "新浪财经".toList
    published := now
    keywords := []
    region := "China (中文)".toList
    summary := [] }


/-- The collection loop of `fetch_sina_finance_rss`, which breaks once five
articles have been gathered (lines 373-393). -/
def sinaCollect (stockCode : PyStr) (now : Time) :
    List SinaLink → Nat → List Article
  | [], _ => []
  | l :: ls, cnt =>
    if sinaCond stockCode l then
      if 5 ≤ cnt + 1 then [sinaArticle l now]
      else sinaArticle l now :: sinaCollect stockCode now ls (cnt + 1)
    else sinaCollect stockCode now ls cnt


/-- `fetch_sina_finance_rss(ticker)` (lines 351-400); the page request does
not depend on the ticker, which is only used for the relevance filter
(`ticker.replace(".HK", "").lstrip("0")`). -/
def fetch_sina_finance_rss (respond : Except Err (Nat × List SinaLink))
    (ticker : PyStr) (now : Time) : List Article :=
  match respond with
  | .error _ => []
  | .ok (status, links) =>
    if status = 200 then
      sinaCollect ((pyReplace ".HK".toList [] ticker).dropWhile (· = '0'))
        now (links.take 20) 0
    else []


/-- One entry of the Wall Street CN `data.items` payload. -/
structure WscnItem where
  title : PyStr
  id : PyStr
  displayTime : Option Int
  summary : PyStr
deriving DecidableEq


/-- Record construction shared by `fetch_wallstreetcn_rss` (lines 455-466)
and the headline variant (lines 548-559); only the region differs. -/
def wscnArticle (region : PyStr) (now : Time) (item : WscnItem) : Option Article :=
  if 5 < item.title.length then
    some
      { title := item.title
        link := "https://wallstreetcn.com/articles/".toList ++ item.id
        source := "华尔街见闻".toList
        published :=
          match item.displayTime with
          | some d => if d ≠ 0 then d else now
          | none => now
        keywords := []
        region := region
        summary := item.summary.take 200 }
  else none


/-- `fetch_wallstreetcn_rss()` (lines 435-473). -/
def fetch_wallstreetcn_rss (respond : Except Err (Nat × List WscnItem))
    (now : Time) : List Article :=
  match respond with
  | .error _ => []
  | .ok (status, items) =>
    if status = 200 then
      (items.take 10).filterMap (wscnArticle "China (中文)".toList now)
    else []


/-- `fetch_eastmoney_news(ticker)` (lines 403-432): even a 200 response is
discarded ("For now, return placeholder"), every other path also yields the
empty list. -/
def fetch_eastmoney_news (respond : PyStr → Except Err Nat) (ticker : PyStr) :
    List Article :=
  match respond (pyReplace ".HK".toList [] ticker) with
  | .error _ => []
  | .ok status => if status = 200 then [] else []


/-- `fetch_market_headlines()` (lines 528-652): three independently guarded
sections (Wall Street CN, Google HK, Google Global), then dedup by
lowercased 60-char title prefix with `len(title) > 5` admission, sort
descending by `published`, truncate to 30. -/
def fetch_market_headlines (wscnRespond : Except Err (Nat × List WscnItem))
    (googleHkRespond googleGlobalRespond : Except Err (Nat × List RssItem))
    (now : Time) : List Article :=
  let s1 :=
    match wscnRespond with
    | .error _ => []
    | .ok (status, items) =>
      if status = 200 then
        (items.take 8).filterMap (wscnArticle "China Market".toList now)
      else []
  let s2 :=
    match googleHkRespond with
    | .error _ => []
    | .ok (status, items) =>
      if status = 200 then
        (items.take 8).filterMap
          (rssArticle 5 "Google 新闻".toList "Hong Kong Market".toList now)
      else []
  let s3 :=
    match googleGlobalRespond with
    | .error _ => []
    | .ok (status, items) =>
      if status = 200 then
        (items.take 8).filterMap
          (rssArticle 5 "Google News".toList "Global Market".toList now)
      else []
  (sortDesc (dedupBy headlineKey admHeadline (s1 ++ s2 ++ s3) [])).take 30


/-- The upstream world of one aggregation request: the three configured API
keys (empty string = absent) and one respond function per upstream
endpoint.  `eastmoney` is present because the module defines its adapter,
even though `get_all_news_cached` never calls it. -/
structure Env where
  FINNHUB_API_KEY : PyStr
  NEWSAPI_KEY : PyStr
  ALPHAVANTAGE_KEY : PyStr
  yahooInfo : PyStr → Except Err (Option PyStr)
  yahooNews : PyStr → Except Err (List YahooItem)
  googleCn : PyStr → Except Err (Nat × List RssItem)
  zhYahoo : PyStr → Except Err (Nat × List ZhYahooItem)
  sina : Except Err (Nat × List SinaLink)
  wscn : Except Err (Nat × List WscnItem)
  googleRss : PyStr → Except Err (Nat × List RssItem)
  finnhub : PyStr → Except Err (Nat × List FinnhubItem)
  newsapi : PyStr → Except Err (Nat × List NewsApiItem)
  alphav : PyStr → Except Err (Nat × Option (List AvItem))
  eastmoney : PyStr → Except Err Nat
  now : Time


/-- Company-name resolution of `get_all_news_cached` (lines 677-682):
`yf.Ticker(ticker).info.get("shortName", ticker)` with the ticker itself as
fallback on any failure. -/
def companyNameOf (env : Env) (ticker : PyStr) : PyStr :=
  match env.yahooInfo ticker with
  | .ok (some n) => n
  | .ok none => ticker
  | .error _ => ticker


/-- The Greater-China test of `get_all_news_cached` (line 688):
`".HK" in ticker or any(x in ticker for x in [".SS", ".SZ"])`. -/
def isGreaterChina (ticker : PyStr) : Bool :=
  containsSub ".HK".toList ticker || containsSub ".SS".toList ticker ||
    containsSub ".SZ".toList ticker


/-- The per-ticker fan-out of `get_all_news_cached` (lines 673-705), in the
source's invocation order: Yahoo, then the Chinese bundle for
Greater-China tickers, then Google News, then the three credentialed APIs
gated on key presence. -/
def fetchForTicker (env : Env) (ticker : PyStr) : List Article :=
  let companyName := companyNameOf env ticker
  fetch_yahoo_news env.yahooNews ticker env.now
    ++ (if isGreaterChina ticker then
          fetch_google_news_chinese env.googleCn companyName ticker env.now
            ++ fetch_zh_yahoo_finance env.zhYahoo ticker env.now
            ++ fetch_sina_finance_rss env.sina ticker env.now
            ++ fetch_wallstreetcn_rss env.wscn env.now
        else [])
    ++ fetch_google_news_rss env.googleRss companyName ticker env.now
    ++ (if env.FINNHUB_API_KEY ≠ [] then
          (fetch_finnhub_news env.FINNHUB_API_KEY env.finnhub ticker env.now).1
        else [])
    ++ (if env.NEWSAPI_KEY ≠ [] then
          (fetch_newsapi_news env.NEWSAPI_KEY env.newsapi ticker
            (some companyName) env.now).1
        else [])
    ++ (if env.ALPHAVANTAGE_KEY ≠ [] then
          (fetch_alphavantage_news env.ALPHAVANTAGE_KEY env.alphav ticker env.now).1
        else [])


/-- `get_all_news_cached(tickers)` (lines 664-726): concatenate the
per-ticker fan-outs in order, dedup by stripped lowercased 60-char title
prefix with `len(title) > 2` admission, sort descending by `published`,
truncate to 50. -/
def get_all_news_cached (env : Env) (tickers : List PyStr) : List Article :=
  let allNews := tickers.foldr (fun t acc => fetchForTicker env t ++ acc) []
  (sortDesc (dedupBy tickerKey admTicker allNews [])).take 50


/-- The suffix-stripped base form used by `get_ticker_news` (line 731):
`ticker.replace(".HK", "").replace(".SS", "").replace(".SZ", "")`. -/
def tickerBaseOf (ticker : PyStr) : PyStr :=
  pyReplace ".SZ".toList [] (pyReplace ".SS".toList [] (pyReplace ".HK".toList [] ticker))


/-- `get_ticker_news(ticker, all_news)` (lines 729-744): a pure filter over
the already-fetched pool, with no network access. -/
def get_ticker_news (ticker : PyStr) (allNews : List Article) : List Article :=
  let tickerBase := tickerBaseOf ticker
  allNews.filter fun item =>
    containsSub (pyLower ticker) (pyLower item.link) ||
      containsSub (pyLower ticker) (pyLower item.title) ||
      containsSub (pyLower tickerBase) (pyLower item.title) ||
      containsSub ticker (pyStrOfStrList item.keywords)


/-- The `"General"` fallback tag of the classifier. -/
def GENERAL : PyStr := "General".toList


/-- Helper turning string literals into a classifier bucket. -/
def bucket (c : String) (kws : List String) : PyStr × List PyStr :=
  (c.toList, kws.map String.toList)


/-- Modelled from the spec: the industry classifier is absent from `src/`
(the spec counts "two near-duplicate news-engine files" but only one is in
`src/`); per section 4.2 it carries 8 fixed bilingual (English/Chinese)
keyword lists for Tech, Finance, Healthcare, Energy, Consumer, Real
Estate, Manufacturing and Telecom.  The concrete keywords are
representative, the claims about the classifier do not depend on them. -/
def industryKeywordLists : List (PyStr × List PyStr) :=
  [ bucket "Tech" ["tech", "ai", "chip", "semiconductor", "software", "科技", "芯片"],
    bucket "Finance" ["bank", "finance", "loan", "insurance", "金融", "银行", "保险"],
    bucket "Healthcare" ["health", "pharma", "biotech", "hospital", "医疗", "制药"],
    bucket "Energy" ["energy", "oil", "gas", "solar", "能源", "石油", "电力"],
    bucket "Consumer" ["consumer", "retail", "ecommerce", "food", "消费", "零售"],
    bucket "Real Estate" ["property", "real estate", "housing", "地产", "楼市"],
    bucket "Manufacturing" ["manufactur", "factory", "industrial", "制造", "工厂"],
    bucket "Telecom" ["telecom", "5g", "broadband", "电信", "通信", "宽带"] ]


/-- Modelled from the spec (section 4.2): `classify(title, body)` lowercases
the concatenated title and body, tests substring containment against the 8
keyword lists (an article may match several), and falls back to the
singleton `["General"]` when nothing matches. -/
def classify (title body : PyStr) : List PyStr :=
  let text := pyLower (title ++ body)
  let cats :=
    industryKeywordLists.filterMap fun p =>
      if p.2.any (fun kw => containsSub kw text) then some p.1 else none
  if cats = [] then [GENERAL] else cats


/-- An environment in which every network interaction raises (keys and the
company-name lookup stay arbitrary). -/
def errEnv (e : Err) (fk nk ak : PyStr)
    (info : PyStr → Except Err (Option PyStr)) (now : Time) : Env where
  FINNHUB_API_KEY := fk
  NEWSAPI_KEY := nk
  ALPHAVANTAGE_KEY := ak
  yahooInfo := info
  yahooNews := fun _ => .error e
  googleCn := fun _ => .error e
  zhYahoo := fun _ => .error e
  sina := .error e
  wscn := .error e
  googleRss := fun _ => .error e
  finnhub := fun _ => .error e
  newsapi := fun _ => .error e
  alphav := fun _ => .error e
  eastmoney := fun _ => .error e
  now := now


/-- A concrete all-failing environment with `NEWSAPI_KEY` unset. -/
def envNoNewsKey : Env :=
  errEnv "boom".toList "k".toList [] "k".toList (fun _ => Except.ok none) 0


/-- An alternative NewsAPI endpoint that would return one article. -/
def altNewsapi : PyStr → Except Err (Nat × List NewsApiItem) := fun _ =>
  Except.ok (200,
    [{ title := some "Alternative headline".toList, url := none,
       sourceName := none, publishedAt := some 7, description := none }])


/-- A concrete environment with no keys, no Chinese-source data and a
successful company lookup returning nothing; individual fields are
overridden per scenario. -/
def quietEnv (now : Time) : Env :=
  errEnv "quiet".toList [] [] [] (fun _ => Except.ok none) now


/-- Yahoo item whose title is 60 spaces followed by `abc`. -/
def yItemC1a : YahooItem :=
  { title := some (List.replicate 60 ' ' ++ "abc".toList), headline := none,
    summary := none, link := none, publisher := none,
    providerPublishTime := some 100 }


/-- Yahoo item whose title is 60 spaces followed by `xyz`. -/
def yItemC1b : YahooItem :=
  { title := some (List.replicate 60 ' ' ++ "xyz".toList), headline := none,
    summary := none, link := none, publisher := none,
    providerPublishTime := some 50 }


/-- Environment whose Yahoo feed returns the two space-padded items. -/
def envC1 : Env :=
  { quietEnv 0 with yahooNews := fun _ => Except.ok [yItemC1a, yItemC1b] }


/-- The article produced from `yItemC1a`. -/
def artC1a : Article :=
  { title := List.replicate 60 ' ' ++ "abc".toList, link := "#".toList,
    source := "Yahoo Finance".toList, published := 100, keywords := [],
    region := "Global".toList, summary := [] }


/-- The article produced from `yItemC1b`. -/
def artC1b : Article :=
  { title := List.replicate 60 ' ' ++ "xyz".toList, link := "#".toList,
    source := "Yahoo Finance".toList, published := 50, keywords := [],
    region := "Global".toList, summary := [] }


/-- Chinese Google News item with a three-character title. -/
def rssAbc : RssItem := { title := some "abc".toList, link := none, pubDate := some 10 }


/-- Environment whose Chinese Google feed returns `rssAbc`. -/
def envC6 : Env :=
  { quietEnv 0 with googleCn := fun _ => Except.ok (200, [rssAbc]) }


/-- The article produced from `rssAbc`. -/
def artAbc : Article :=
  { title := "abc".toList, link := "#".toList, source := "Google 新闻".toList,
    published := 10, keywords := [], region := "China/HK (中文)".toList,
    summary := [] }


/-- An already-fetched headline with a four-character title. -/
def artAbcd : Article :=
  { title := "abcd".toList, link := "#".toList, source := [], published := 0,
    keywords := [], region := [], summary := [] }


/-- The retained-article predicate as the (amended) spec words it: ticker
appears (case-insensitively) in the link or in the title, or the base form
appears (case-insensitively) in the title, or the raw ticker string occurs
in the Python string representation of the keywords list. -/
def relevantAmended (ticker : PyStr) (a : Article) : Bool :=
  containsSub (pyLower ticker) (pyLower a.link) ||
    containsSub (pyLower ticker) (pyLower a.title) ||
    containsSub (pyLower (tickerBaseOf ticker)) (pyLower a.title) ||
    containsSub ticker (pyStrOfStrList a.keywords)


/-- An article whose link mentions the base form `0700` (but not the full
ticker `0700.HK`) and whose title and keywords never mention the ticker. -/
def artBase : Article :=
  { title := "Quarterly results story".toList,
    link := "https://news.example.com/0700-results".toList,
    source := "Z".toList, published := 3, keywords := [],
    region := "Hong Kong".toList, summary := [] }


/-- First record of the spec's filter scenario. -/
def tencentArt : Article :=
  { title := "Tencent profit up".toList,
    link := "https://finance.example.com/quote/0700.HK/news".toList,
    source := "X".toList, published := 1, keywords := [],
    region := "Hong Kong".toList, summary := [] }


/-- Second record of the spec's filter scenario. -/
def unrelatedArt : Article :=
  { title := "Unrelated".toList,
    link := "https://example.com/story".toList,
    source := "Y".toList, published := 2, keywords := [],
    region := "Global".toList, summary := [] }


/-- A 201-character summary string. -/
def longSummary : PyStr := List.replicate 201 's'


/-- A Finnhub payload item carrying the 201-character summary. -/
def finnhubLongItem : FinnhubItem :=
  { headline := some "Results announced".toList, url := none, source := none,
    datetime := some 5, related := none, summary := some longSummary }


/-- The article the Finnhub adapter builds from `finnhubLongItem`. -/
def artLong : Article :=
  { title := "Results announced".toList, link := "#".toList,
    source := "Finnhub".toList, published := 5, keywords := [],
    region := "Global".toList, summary := longSummary }


/-- Summary length bound as a boolean predicate. -/
def sumOk (a : Article) : Bool := decide (a.summary.length ≤ 200)


/-- Characterization of the dedup loop: the articles of the output carrying
a given key `k` are exactly the first admissible input article with key `k`
(none if `k` was already seen or no admissible article carries it). -/
theorem dedupBy_filter (key : Article → PyStr) (adm : Article → Bool)
    (l : List Article) (seen : List PyStr) (k : PyStr) :
    (dedupBy key adm l seen).filter (fun c => decide (key c = k))
      = if k ∈ seen then []
        else (l.find? fun c => adm c && decide (key c = k)).toList := by
  induction l generalizing seen with
  | nil =>
    rw [dedupBy]
    by_cases hk : k ∈ seen <;> simp [hk]
  | cons a rest ih =>
    by_cases hmem : key a ∈ seen
    · have hneg : ¬(key a ∉ seen ∧ adm a = true) := fun h => h.1 hmem
      rw [dedupBy, if_neg hneg, ih]
      by_cases hk : k ∈ seen
      · simp [hk]
      · have hne : key a ≠ k := fun heq => hk (heq ▸ hmem)
        have hpa : ¬((adm a && decide (key a = k)) = true) := by simp [hne]
        rw [if_neg hk, if_neg hk, List.find?_cons_of_neg rest hpa]
    · by_cases hadm : adm a = true
      · rw [dedupBy, if_pos ⟨hmem, hadm⟩]
        by_cases hk : key a = k
        · subst hk
          rw [List.filter_cons_of_pos (by simp)]
          have h2 := ih (key a :: seen)
          rw [if_pos (List.mem_cons_self _ _)] at h2
          have hpa : ((fun c => adm c && decide (key c = key a)) a = true) := by
            simp [hadm]
          rw [h2, if_neg hmem, List.find?_cons_of_pos rest hpa]
          rfl
        · rw [List.filter_cons_of_neg (by simp [hk])]
          have h2 := ih (key a :: seen)
          by_cases hks : k ∈ seen
          · rw [if_pos (List.mem_cons_of_mem _ hks)] at h2
            rw [h2, if_pos hks]
          · rw [if_neg (by
              intro hc
              rcases List.mem_cons.mp hc with h | h
              · exact hk h.symm
              · exact hks h)] at h2
            have hpa : ¬((adm a && decide (key a = k)) = true) := by simp [hk]
            rw [h2, if_neg hks, List.find?_cons_of_neg rest hpa]
      · have hneg : ¬(key a ∉ seen ∧ adm a = true) := fun h => hadm h.2
        have hadm' : adm a = false := Bool.eq_false_iff.mpr hadm
        rw [dedupBy, if_neg hneg, ih]
        by_cases hk : k ∈ seen
        · simp [hk]
        · have hpa : ¬((adm a && decide (key a = k)) = true) := by simp [hadm']
          rw [if_neg hk, if_neg hk, List.find?_cons_of_neg rest hpa]


/-- Every article emitted by the dedup loop is an input article that passed
the admission test. -/
theorem mem_dedupBy (key : Article → PyStr) (adm : Article → Bool)
    (l : List Article) (seen : List PyStr) (a : Article)
    (h : a ∈ dedupBy key adm l seen) : a ∈ l ∧ adm a = true := by
  induction l generalizing seen with
  | nil => rw [dedupBy] at h; cases h
  | cons b rest ih =>
    rw [dedupBy] at h
    by_cases hc : key b ∉ seen ∧ adm b = true
    · rw [if_pos hc] at h
      rcases List.mem_cons.mp h with rfl | h2
      · exact ⟨List.mem_cons_self _ _, hc.2⟩
      · rcases ih _ h2 with ⟨h3, h4⟩
        exact ⟨List.mem_cons_of_mem _ h3, h4⟩
    · rw [if_neg hc] at h
      rcases ih _ h with ⟨h3, h4⟩
      exact ⟨List.mem_cons_of_mem _ h3, h4⟩


/-- The output sort is sorted for the descending-`published` relation. -/
theorem sortDesc_sorted (l : List Article) : (sortDesc l).Sorted pubGe :=
  List.sorted_insertionSort pubGe l


/-- The output sort permutes its input. -/
theorem sortDesc_perm (l : List Article) : List.Perm (sortDesc l) l :=
  List.perm_insertionSort pubGe l


/-- Truncating a sorted-descending list keeps adjacent pairs ordered. -/
theorem chain'_take_sortDesc (l : List Article) (n : Nat) :
    ((sortDesc l).take n).Chain' pubGe :=
  (List.Pairwise.sublist (List.take_sublist n _) (sortDesc_sorted l)).chain'


/-- Articles of the aggregate output passed the ticker dedup admission. -/
theorem mem_get_all_news_adm (env : Env) (tickers : List PyStr) (a : Article)
    (h : a ∈ get_all_news_cached env tickers) : admTicker a = true := by
  have h1 : a ∈ sortDesc (dedupBy tickerKey admTicker
      (tickers.foldr (fun t acc => fetchForTicker env t ++ acc) []) []) :=
    (List.take_sublist _ _).subset h
  have h2 := (sortDesc_perm _).subset h1
  exact (mem_dedupBy _ _ _ _ _ h2).2


/-- Articles of the headline output passed the headline dedup admission. -/
theorem mem_headlines_adm (w : Except Err (Nat × List WscnItem))
    (g1 g2 : Except Err (Nat × List RssItem)) (now : Time) (a : Article)
    (h : a ∈ fetch_market_headlines w g1 g2 now) : admHeadline a = true := by
  have h1 := (List.take_sublist _ _).subset h
  have h2 := (sortDesc_perm _).subset h1
  exact (mem_dedupBy _ _ _ _ _ h2).2


/-- The Finnhub loop over failing requests gathers no articles. -/
theorem finnhubLoop_err (ticker : PyStr) (e : Err) (now : Time) (l : List PyStr) :
    (finnhubLoop (fun _ => Except.error e) ticker now l).1.getD [] = [] := by
  cases l with
  | nil => rfl
  | cons s ss => rfl


/-- A failing Finnhub request yields the empty article list for any key. -/
theorem fetch_finnhub_news_err (key ticker : PyStr) (e : Err) (now : Time) :
    (fetch_finnhub_news key (fun _ => Except.error e) ticker now).1 = [] := by
  unfold fetch_finnhub_news
  by_cases hkey : key = []
  · simp [hkey]
  · rw [if_neg hkey]
    exact finnhubLoop_err ticker e now _


/-- A failing NewsAPI request yields the empty article list for any key. -/
theorem fetch_newsapi_news_err (key ticker : PyStr) (companyName : Option PyStr)
    (e : Err) (now : Time) :
    (fetch_newsapi_news key (fun _ => Except.error e) ticker companyName now).1 = [] := by
  unfold fetch_newsapi_news
  by_cases hkey : key = [] <;> simp [hkey]


/-- A failing Alpha Vantage request yields the empty article list for any key. -/
theorem fetch_alphavantage_news_err (key ticker : PyStr) (e : Err) (now : Time) :
    (fetch_alphavantage_news key (fun _ => Except.error e) ticker now).1 = [] := by
  unfold fetch_alphavantage_news
  by_cases hkey : key = [] <;> simp [hkey]


/-- The per-ticker fan-out of the all-failing environment is empty. -/
theorem fetchForTicker_errEnv (e : Err) (fk nk ak : PyStr)
    (info : PyStr → Except Err (Option PyStr)) (now : Time) (ticker : PyStr) :
    fetchForTicker (errEnv e fk nk ak info now) ticker = [] := by
  unfold fetchForTicker
  simp [errEnv, fetch_yahoo_news, fetch_google_news_chinese,
    fetch_zh_yahoo_finance, fetch_sina_finance_rss, fetch_wallstreetcn_rss,
    fetch_google_news_rss, fetch_finnhub_news_err, fetch_newsapi_news_err,
    fetch_alphavantage_news_err]


/-- C2: every source adapter converts any internal failure (transport
error, timeout, malformed payload — modelled as an `Except.error` upstream
result) into the empty sequence instead of propagating it, and the
aggregate request itself never fails: with every adapter failing (keys and
company-name lookup arbitrary), `get_all_news_cached` returns the empty
list as a valid result, and so does `fetch_market_headlines`. -/
theorem c2_graceful_degradation :
    ∀ (e : Err) (ticker companyName key fk nk ak : PyStr)
      (info : PyStr → Except Err (Option PyStr)) (now : Time)
      (tickers : List PyStr),
      fetch_yahoo_news (fun _ => Except.error e) ticker now = [] ∧
      fetch_google_news_rss (fun _ => Except.error e) companyName ticker now = [] ∧
      fetch_google_news_chinese (fun _ => Except.error e) companyName ticker now = [] ∧
      fetch_zh_yahoo_finance (fun _ => Except.error e) ticker now = [] ∧
      fetch_sina_finance_rss (Except.error e) ticker now = [] ∧
      fetch_wallstreetcn_rss (Except.error e) now = [] ∧
      (fetch_finnhub_news key (fun _ => Except.error e) ticker now).1 = [] ∧
      (fetch_newsapi_news key (fun _ => Except.error e) ticker (some companyName) now).1 = [] ∧
      (fetch_alphavantage_news key (fun _ => Except.error e) ticker now).1 = [] ∧
      fetch_eastmoney_news (fun _ => Except.error e) ticker = [] ∧
      get_all_news_cached (errEnv e fk nk ak info now) tickers = [] ∧
      fetch_market_headlines (Except.error e) (Except.error e) (Except.error e) now = [] := by
  intro e ticker companyName key fk nk ak info now tickers
  refine ⟨rfl, rfl, rfl, rfl, rfl, rfl, fetch_finnhub_news_err key ticker e now,
    fetch_newsapi_news_err key ticker (some companyName) e now,
    fetch_alphavantage_news_err key ticker e now, rfl, ?_, rfl⟩
  have hall : tickers.foldr
      (fun t acc => fetchForTicker (errEnv e fk nk ak info now) t ++ acc) [] = [] := by
    induction tickers with
    | nil => rfl
    | cons t ts ih => simp [fetchForTicker_errEnv, ih]
  show (sortDesc (dedupBy tickerKey admTicker _ [])).take 50 = []
  rw [hall]
  rfl


/-- C3: in both the per-ticker aggregate output and the headline output,
every adjacent pair `(a, b)` satisfies `b.published ≤ a.published`
(descending order), including after the final truncation. -/
theorem c3_sort_invariant :
    ∀ (env : Env) (tickers : List PyStr)
      (w : Except Err (Nat × List WscnItem))
      (g1 g2 : Except Err (Nat × List RssItem)) (now : Time),
      (get_all_news_cached env tickers).Chain' pubGe ∧
      (fetch_market_headlines w g1 g2 now).Chain' pubGe := by
  intro env tickers w g1 g2 now
  exact ⟨chain'_take_sortDesc _ 50, chain'_take_sortDesc _ 30⟩


/-- C4: the per-ticker aggregate output never exceeds 50 articles and the
headline output never exceeds 30, for every input. -/
theorem c4_cap_invariant :
    ∀ (env : Env) (tickers : List PyStr)
      (w : Except Err (Nat × List WscnItem))
      (g1 g2 : Except Err (Nat × List RssItem)) (now : Time),
      (get_all_news_cached env tickers).length ≤ 50 ∧
      (fetch_market_headlines w g1 g2 now).length ≤ 30 := by
  intro env tickers w g1 g2 now
  exact ⟨List.length_take_le 50 _, List.length_take_le 30 _⟩


/-- C10: the East Money adapter returns the empty sequence for every
response — including a successful 200 — and the per-ticker aggregator is
independent of the East Money endpoint entirely (it never invokes it), so
East Money contributes zero articles to every aggregate result. -/
theorem c10_eastmoney_inert :
    (∀ (respond : PyStr → Except Err Nat) (ticker : PyStr),
        fetch_eastmoney_news respond ticker = []) ∧
    (∀ (ticker : PyStr), fetch_eastmoney_news (fun _ => Except.ok 200) ticker = []) ∧
    (∀ (env : Env) (f : PyStr → Except Err Nat) (tickers : List PyStr),
        get_all_news_cached { env with eastmoney := f } tickers
          = get_all_news_cached env tickers) := by
  refine ⟨?_, fun _ => rfl, fun _ _ _ => rfl⟩
  intro respond ticker
  unfold fetch_eastmoney_news
  cases respond (pyReplace ".HK".toList [] ticker) with
  | error e => rfl
  | ok status =>
    by_cases h : status = 200 <;> simp [h]


/-- C5: each credentialed adapter (NewsAPI, Finnhub, Alpha Vantage) called
with an absent key returns the empty result immediately with an empty
request trace (no network call attempted), and with `NEWSAPI_KEY` unset
the aggregate result does not depend on the NewsAPI endpoint at all (the
adapter is never invoked and contributes zero articles). -/
theorem c5_credential_gating :
    (∀ (respond : PyStr → Except Err (Nat × List NewsApiItem))
        (ticker : PyStr) (companyName : Option PyStr) (now : Time),
        fetch_newsapi_news [] respond ticker companyName now = ([], [])) ∧
    (∀ (respond : PyStr → Except Err (Nat × List FinnhubItem))
        (ticker : PyStr) (now : Time),
        fetch_finnhub_news [] respond ticker now = ([], [])) ∧
    (∀ (respond : PyStr → Except Err (Nat × Option (List AvItem)))
        (ticker : PyStr) (now : Time),
        fetch_alphavantage_news [] respond ticker now = ([], [])) ∧
    (∀ (env : Env) (f : PyStr → Except Err (Nat × List NewsApiItem))
        (tickers : List PyStr),
        env.NEWSAPI_KEY = [] →
        get_all_news_cached { env with newsapi := f } tickers
          = get_all_news_cached env tickers) := by
  refine ⟨fun _ _ _ _ => rfl, fun _ _ _ => rfl, fun _ _ _ => rfl, ?_⟩
  intro env f tickers hkey
  have hft : ∀ t, fetchForTicker { env with newsapi := f } t = fetchForTicker env t := by
    intro t
    unfold fetchForTicker
    simp [companyNameOf, hkey]
  unfold get_all_news_cached
  simp only [hft]


theorem c5_credential_gating_witness :
    envNoNewsKey.NEWSAPI_KEY = [] ∧
    get_all_news_cached { envNoNewsKey with newsapi := altNewsapi } ["0700.HK".toList]
      = get_all_news_cached envNoNewsKey ["0700.HK".toList] :=
  ⟨rfl, c5_credential_gating.2.2.2 envNoNewsKey altNewsapi ["0700.HK".toList] rfl⟩


/-- C1 is false as stated: the ticker dedup key is computed from the
`strip()`ped lowercased title, so two fetched articles whose lowercased
titles agree on their first 60 characters (here: both start with 60
spaces) can BOTH survive into the merged pool. -/
theorem c1_counterexample :
    get_all_news_cached envC1 ["AAPL".toList] = [artC1a, artC1b] ∧
    (pyLower artC1a.title).take 60 = (pyLower artC1b.title).take 60 ∧
    artC1a ≠ artC1b := by
  refine ⟨by decide, by decide, by decide⟩


/-- C1 amended: with the dedup keys as actually computed (per-ticker:
lowercased stripped title truncated to 60 characters, admission length
> 2; headlines: lowercased title truncated to 60, admission raw length
> 5), the articles of the deduplicated pool carrying a given key are
exactly the first admissible fetched article with that key; every later
duplicate is discarded regardless of its metadata. -/
theorem c1_dedup_first_wins :
    ∀ (l : List Article) (k : PyStr),
      ((dedupBy tickerKey admTicker l []).filter (fun c => decide (tickerKey c = k))
        = (l.find? fun c => admTicker c && decide (tickerKey c = k)).toList) ∧
      ((dedupBy headlineKey admHeadline l []).filter (fun c => decide (headlineKey c = k))
        = (l.find? fun c => admHeadline c && decide (headlineKey c = k)).toList) := by
  intro l k
  constructor
  · have h := dedupBy_filter tickerKey admTicker l [] k
    simpa using h
  · have h := dedupBy_filter headlineKey admHeadline l [] k
    simpa using h


/-- C6 is false as stated: a three-character Chinese-source title enters
the ticker-news pool (so not every pooled article has title length > 5),
and the headline dedup requires length > 5, not > 2 (a four-character
title longer than 2 is dropped). -/
theorem c6_counterexample :
    (get_all_news_cached envC6 ["0700.HK".toList] = [artAbc] ∧
      artAbc.title.length = 3) ∧
    (dedupBy headlineKey admHeadline [artAbcd] [] = [] ∧
      2 < artAbcd.title.length) := by
  refine ⟨⟨by decide, by decide⟩, ⟨by decide, by decide⟩⟩


/-- `List.all` holds on a `filterMap` whenever the partial map only emits
satisfying articles. -/
theorem all_filterMap {α : Type} (f : α → Option Article) (p : Article → Bool)
    (l : List α) (h : ∀ x a, f x = some a → p a = true) :
    (l.filterMap f).all p = true := by
  rw [List.all_eq_true]
  intro a ha
  rcases List.mem_filterMap.mp ha with ⟨x, _, hx⟩
  exact h x a hx


/-- Shape of an article emitted by the RSS item mapper: title longer than
the threshold and empty summary. -/
theorem rssArticle_shape (minLen : Nat) (sourceName region : PyStr) (now : Time)
    (item : RssItem) (a : Article)
    (h : rssArticle minLen sourceName region now item = some a) :
    minLen < a.title.length ∧ a.summary = [] := by
  unfold rssArticle at h
  cases htitle : item.title with
  | none => rw [htitle] at h; cases h
  | some t =>
    rw [htitle] at h
    dsimp only at h
    by_cases hl : minLen < t.length
    · rw [if_pos hl] at h
      have h2 := Option.some.inj h
      subst h2
      exact ⟨hl, rfl⟩
    · rw [if_neg hl] at h
      cases h


/-- Shape of an article emitted by the Wall Street CN item mapper: the
summary is truncated to at most 200 characters. -/
theorem wscnArticle_summary (region : PyStr) (now : Time) (item : WscnItem)
    (a : Article) (h : wscnArticle region now item = some a) :
    a.summary.length ≤ 200 := by
  unfold wscnArticle at h
  by_cases hl : 5 < item.title.length
  · rw [if_pos hl] at h
    have h2 := Option.some.inj h
    subst h2
    exact List.length_take_le 200 _
  · rw [if_neg hl] at h
    cases h


/-- Every article collected from the Sina page has an empty summary. -/
theorem mem_sinaCollect (stockCode : PyStr) (now : Time) (links : List SinaLink)
    (cnt : Nat) (a : Article) (h : a ∈ sinaCollect stockCode now links cnt) :
    a.summary = [] := by
  induction links generalizing cnt with
  | nil => rw [sinaCollect] at h; cases h
  | cons l ls ih =>
    rw [sinaCollect] at h
    by_cases hc : sinaCond stockCode l = true
    · rw [if_pos hc] at h
      by_cases h5 : 5 ≤ cnt + 1
      · rw [if_pos h5] at h
        rcases List.mem_singleton.mp h with rfl
        rfl
      · rw [if_neg h5] at h
        rcases List.mem_cons.mp h with rfl | h2
        · rfl
        · exact ih _ h2
    · rw [if_neg hc] at h
      exact ih _ h


/-- C6 amended: articles are dropped at the adapter boundary below the
per-adapter threshold (> 5 for the English-language sources, > 2 for the
Chinese Google adapter); the per-ticker aggregator's dedup then admits any
article whose stripped lowercased title is longer than 2 — so short CJK
titles of length 3-5 do enter the ticker pool — while the headline
pipeline only ever contains titles of length > 5. -/
theorem c6_admission_thresholds :
    ∀ (env : Env) (tickers : List PyStr)
      (w : Except Err (Nat × List WscnItem))
      (g1 g2 : Except Err (Nat × List RssItem)) (now : Time)
      (respond : PyStr → Except Err (Nat × List RssItem))
      (respondY : PyStr → Except Err (List YahooItem))
      (companyName ticker : PyStr),
      (get_all_news_cached env tickers).all admTicker = true ∧
      (fetch_market_headlines w g1 g2 now).all admHeadline = true ∧
      (fetch_google_news_chinese respond companyName ticker now).all
        (fun a => decide (2 < a.title.length)) = true ∧
      (fetch_yahoo_news respondY ticker now).all
        (fun a => decide (5 < a.title.length)) = true := by
  intro env tickers w g1 g2 now respond respondY companyName ticker
  refine ⟨?_, ?_, ?_, ?_⟩
  · rw [List.all_eq_true]
    intro a ha
    exact mem_get_all_news_adm env tickers a ha
  · rw [List.all_eq_true]
    intro a ha
    exact mem_headlines_adm w g1 g2 now a ha
  · simp only [fetch_google_news_chinese]
    split
    · rfl
    · split
      · exact all_filterMap _ _ _ (fun x a hx => by
          simpa using (rssArticle_shape _ _ _ _ _ _ hx).1)
      · rfl
  · simp only [fetch_yahoo_news]
    split
    · rfl
    · split
      · rfl
      · exact all_filterMap _ _ _ (fun x a hx => by
          by_cases hl : 5 < (yahooTitle x).length
          · rw [if_pos hl] at hx
            have h2 := Option.some.inj hx
            subst h2
            simpa using hl
          · rw [if_neg hl] at hx
            cases hx)


/-- C7 is false as stated: the code never tests the suffix-stripped base
form against the link, so an article whose link contains the base form
`0700` (and nothing else matching) is NOT returned, although the claim
says an article in which "the ticker or its suffix-stripped base form
appears in the link or the title" is. -/
theorem c7_counterexample :
    get_ticker_news "0700.HK".toList [artBase] = [] ∧
    containsSub (tickerBaseOf "0700.HK".toList) artBase.link = true := by
  refine ⟨by decide, by decide⟩


/-- C7 amended: `get_ticker_news` is a pure filter (no network access)
retaining exactly the articles where the lowercased ticker occurs in the
lowercased link or title, or the lowercased base form occurs in the
lowercased title (the base form is never tested against the link), or the
raw ticker occurs in `str(keywords)`; on the spec's scenario pool it
returns exactly the first record. -/
theorem c7_filter_semantics :
    (∀ (ticker : PyStr) (pool : List Article),
        get_ticker_news ticker pool = pool.filter (relevantAmended ticker)) ∧
    get_ticker_news "0700.HK".toList [tencentArt, unrelatedArt] = [tencentArt] := by
  exact ⟨fun _ _ => rfl, by decide⟩


set_option maxRecDepth 4000 in
/-- C8 is false as stated: the Finnhub adapter copies the upstream summary
verbatim (no `[:200]` truncation, line 112), so it constructs an article
whose summary is 201 characters long. -/
theorem c8_counterexample :
    (fetch_finnhub_news "k".toList (fun _ => Except.ok (200, [finnhubLongItem]))
        "AAPL".toList 0).1 = [artLong] ∧
    200 < artLong.summary.length := by
  refine ⟨by decide, by decide⟩


/-- C8 amended: every adapter except Finnhub yields summaries of at most
200 characters (several always yield the empty summary), and every article
of the headline pipeline is so bounded; only the Finnhub adapter passes
the upstream summary through unmodified. -/
theorem c8_summary_bound :
    ∀ (ticker companyName key : PyStr) (companyOpt : Option PyStr) (now : Time)
      (ry : PyStr → Except Err (List YahooItem))
      (rn : PyStr → Except Err (Nat × List NewsApiItem))
      (ra : PyStr → Except Err (Nat × Option (List AvItem)))
      (rw1 w : Except Err (Nat × List WscnItem))
      (rg rc : PyStr → Except Err (Nat × List RssItem))
      (rz : PyStr → Except Err (Nat × List ZhYahooItem))
      (rs : Except Err (Nat × List SinaLink))
      (g1 g2 : Except Err (Nat × List RssItem)),
      (fetch_yahoo_news ry ticker now).all sumOk = true ∧
      ((fetch_newsapi_news key rn ticker companyOpt now).1).all sumOk = true ∧
      ((fetch_alphavantage_news key ra ticker now).1).all sumOk = true ∧
      (fetch_wallstreetcn_rss rw1 now).all sumOk = true ∧
      (fetch_google_news_rss rg companyName ticker now).all sumOk = true ∧
      (fetch_google_news_chinese rc companyName ticker now).all sumOk = true ∧
      (fetch_zh_yahoo_finance rz ticker now).all sumOk = true ∧
      (fetch_sina_finance_rss rs ticker now).all sumOk = true ∧
      (fetch_market_headlines w g1 g2 now).all sumOk = true := by
  intro ticker companyName key companyOpt now ry rn ra rw1 w rg rc rz rs g1 g2
  refine ⟨?_, ?_, ?_, ?_, ?_, ?_, ?_, ?_, ?_⟩
  · simp only [fetch_yahoo_news]
    split
    · rfl
    · split
      · rfl
      · exact all_filterMap _ _ _ (fun x a hx => by
          by_cases hl : 5 < (yahooTitle x).length
          · rw [if_pos hl] at hx
            have h2 := Option.some.inj hx
            subst h2
            simp [sumOk]
          · rw [if_neg hl] at hx
            cases hx)
  · simp only [fetch_newsapi_news]
    split
    · rfl
    · split
      · rfl
      · split
        · exact all_filterMap _ _ _ (fun x a hx => by
            by_cases hl : 5 < (x.title.getD []).length
            · rw [if_pos hl] at hx
              have h2 := Option.some.inj hx
              subst h2
              simp [sumOk]
            · rw [if_neg hl] at hx
              cases hx)
        · rfl
  · simp only [fetch_alphavantage_news]
    split
    · rfl
    · split
      · rfl
      · split
        · split
          · exact all_filterMap _ _ _ (fun x a hx => by
              by_cases hl : 5 < (x.title.getD []).length
              · rw [if_pos hl] at hx
                have h2 := Option.some.inj hx
                subst h2
                simp [sumOk]
              · rw [if_neg hl] at hx
                cases hx)
          · rfl
        · rfl
  · simp only [fetch_wallstreetcn_rss]
    split
    · rfl
    · split
      · exact all_filterMap _ _ _ (fun x a hx => by
          simpa [sumOk] using wscnArticle_summary _ _ _ _ hx)
      · rfl
  · simp only [fetch_google_news_rss]
    split
    · rfl
    · split
      · exact all_filterMap _ _ _ (fun x a hx => by
          simp [sumOk, (rssArticle_shape _ _ _ _ _ _ hx).2])
      · rfl
  · simp only [fetch_google_news_chinese]
    split
    · rfl
    · split
      · exact all_filterMap _ _ _ (fun x a hx => by
          simp [sumOk, (rssArticle_shape _ _ _ _ _ _ hx).2])
      · rfl
  · simp only [fetch_zh_yahoo_finance]
    split
    · rfl
    · split
      · exact all_filterMap _ _ _ (fun x a hx => by
          cases hh : x.parentHref with
          | none => rw [hh] at hx; cases hx
          | some href =>
            rw [hh] at hx
            dsimp only at hx
            by_cases hl : 5 < x.title.length
            · rw [if_pos hl] at hx
              have h2 := Option.some.inj hx
              subst h2
              rfl
            · rw [if_neg hl] at hx
              cases hx)
      · rfl
  · simp only [fetch_sina_finance_rss]
    split
    · rfl
    · split
      · rw [List.all_eq_true]
        intro a ha
        have hs := mem_sinaCollect _ _ _ _ _ ha
        simp [sumOk, hs]
      · rfl
  · rw [List.all_eq_true]
    intro a ha
    have h1 := (List.take_sublist _ _).subset ha
    have h2 := (sortDesc_perm _).subset h1
    have h3 := (mem_dedupBy _ _ _ _ _ h2).1
    rcases List.mem_append.mp h3 with h12 | hs3
    · rcases List.mem_append.mp h12 with hs1 | hs2
      · split at hs1
        · cases hs1
        · split at hs1
          · rcases List.mem_filterMap.mp hs1 with ⟨x, _, hx⟩
            simpa [sumOk] using wscnArticle_summary _ _ _ _ hx
          · cases hs1
      · split at hs2
        · cases hs2
        · split at hs2
          · rcases List.mem_filterMap.mp hs2 with ⟨x, _, hx⟩
            simp [sumOk, (rssArticle_shape _ _ _ _ _ _ hx).2]
          · cases hs2
    · split at hs3
      · cases hs3
      · split at hs3
        · rcases List.mem_filterMap.mp hs3 with ⟨x, _, hx⟩
          simp [sumOk, (rssArticle_shape _ _ _ _ _ _ hx).2]
        · cases hs3


/-- C9: the classifier never returns the empty list: it is built over the 8
fixed bilingual keyword lists and falls back to the singleton
`["General"]` exactly when no keyword of any list occurs as a substring of
the lowercased concatenated title and body. -/
theorem c9_classifier_totality :
    ∀ (title body : PyStr),
      classify title body ≠ [] ∧
      industryKeywordLists.length = 8 ∧
      ((industryKeywordLists.all fun p =>
          p.2.all fun kw => !containsSub kw (pyLower (title ++ body))) = true →
        classify title body = [GENERAL]) := by
  intro title body
  refine ⟨?_, rfl, ?_⟩
  · unfold classify
    by_cases h : (industryKeywordLists.filterMap fun p =>
        if p.2.any (fun kw => containsSub kw (pyLower (title ++ body))) then
          some p.1
        else none) = []
    · rw [if_pos h]
      simp [GENERAL]
    · rw [if_neg h]
      exact h
  · intro hnone
    unfold classify
    have hempty : (industryKeywordLists.filterMap fun p =>
        if p.2.any (fun kw => containsSub kw (pyLower (title ++ body))) then
          some p.1
        else none) = [] := by
      rw [List.filterMap_eq_nil_iff]
      intro p hp
      have hall := (List.all_eq_true.mp hnone) p hp
      have hany : (p.2.any fun kw => containsSub kw (pyLower (title ++ body))) = false := by
        rw [List.any_eq_false]
        intro kw hkw
        have := (List.all_eq_true.mp hall) kw hkw
        simpa using this
      simp [hany]
    rw [if_pos hempty]


theorem c9_classifier_totality_witness :
    classify "zzzz".toList [] ≠ [] ∧ classify "zzzz".toList [] = [GENERAL] :=
  ⟨(c9_classifier_totality "zzzz".toList []).1,
    (c9_classifier_totality "zzzz".toList []).2.2 (by decide)⟩
